import Mathlib

set_option linter.unusedVariables false

/-!
Verification development for the binwen serializer core
(`binwen/serializers/fields.py`, `binwen/serializers/serializers.py`).

The Python values handled by the validation engine are embedded as `PyVal`
(floats are not modelled; no claim exercises them).  The `empty` sentinel of
`fields.py` (value absent from the input) is modelled by `Inp.empty`,
distinct from the explicit null `PyVal.vnone`.

A raised `ValidationError` carries a details payload; in the source the
payload is a message string, a list, or a dict (lists/dicts being
JSON-encoded at construction by `RpcException.__init__`).  We keep the
payload structured, as `ErrTree`; the JSON encoding is injective on the
shapes produced, so key/index structure is preserved faithfully.

`VRes` is the outcome of `run_validation`: a value, a raised
`ValidationError`, a raised `SkipFieldException`, or any other escaping
exception (`crash`).
-/

inductive PyVal where
  | vnone : PyVal
  | bool (b : Bool) : PyVal
  | int (n : Int) : PyVal
  | str (s : String) : PyVal
  | list (l : List PyVal) : PyVal
  | dict (d : List (String × PyVal)) : PyVal

inductive Inp where
  | empty : Inp
  | val (v : PyVal) : Inp

inductive ErrTree where
  | msg (s : String) : ErrTree
  | nlist (l : List ErrTree) : ErrTree
  | imap (l : List (Nat × ErrTree)) : ErrTree
  | smap (l : List (String × ErrTree)) : ErrTree

inductive VRes where
  | ok (v : PyVal) : VRes
  | err (e : ErrTree) : VRes
  | skip : VRes
  | crash : VRes

/-- Python `str.strip()` whitespace test (space, tab, newline, CR, VT, FF). -/
def isWs (c : Char) : Bool :=
  c == ' ' || c == '\t' || c == '\n' || c == '\r' || c == '\x0b' || c == '\x0c'

/-- Python `str.strip()` on a character list: drop whitespace at both ends. -/
def pyStripL (cs : List Char) : List Char :=
  ((cs.dropWhile isWs).reverse.dropWhile isWs).reverse

/-- Python `str.strip()`. -/
def pyStrip (s : String) : String :=
  ⟨pyStripL s.data⟩

/-- A single-quote character, used by Python `repr` of strings. -/
def squote : String := String.singleton (Char.ofNat 39)

mutual

/-- Python `repr` of an embedded value (quote escaping inside strings is
elided; no claim exercises it). -/
def pyRepr : PyVal → String
  | .vnone => "None"
  | .bool true => "True"
  | .bool false => "False"
  | .int n => toString n
  | .str s => squote ++ s ++ squote
  | .list l => "[" ++ pyReprList l ++ "]"
  | .dict d => "\x7b" ++ pyReprDict d ++ "\x7d"

/-- Comma-separated `repr` of list elements. -/
def pyReprList : List PyVal → String
  | [] => ""
  | [v] => pyRepr v
  | v :: rest => pyRepr v ++ ", " ++ pyReprList rest

/-- Comma-separated `repr` of dict items. -/
def pyReprDict : List (String × PyVal) → String
  | [] => ""
  | [(k, v)] => squote ++ k ++ squote ++ ": " ++ pyRepr v
  | (k, v) :: rest => squote ++ k ++ squote ++ ": " ++ pyRepr v ++ ", " ++ pyReprDict rest

end

/-- Python `str()` of an embedded value. -/
def pyStr : PyVal → String
  | .str s => s
  | v => pyRepr v

/-- Python `type(x).__name__` for the embedded values. -/
def pyTypeName : PyVal → String
  | .vnone => "NoneType"
  | .bool _ => "bool"
  | .int _ => "int"
  | .str _ => "str"
  | .list _ => "list"
  | .dict _ => "dict"

/-- Python truthiness of a details payload (empty string / empty
collection is falsy). -/
def pyTruthyTree : ErrTree → Bool
  | .msg s => !(s == "")
  | .nlist l => !l.isEmpty
  | .imap l => !l.isEmpty
  | .smap l => !l.isEmpty

/-!
### Field core (`fields.py`, class `Field`)

Error messages: `Field.fail(key)` looks the key up in the merged
`error_messages` mapping and raises `ValidationError` with the rendered
message.  We inline the resolved default messages of each field class (no
claim overrides `error_messages`), and render `str.format` templates with
explicit string concatenation.
-/

def requiredMsg : String := "This field is required."

def nullMsg : String := "This field may not be null."

def invalidIntMsg : String := "A valid integer is required."

def maxStringLengthMsg : String := "String value too large."

def charInvalidMsg : String := "Not a valid string."

def blankMsg : String := "This field may not be blank."

def emptyListMsg : String := "This list may not be empty."

/-- `'Expected a list of items but got type "{input_type}".'.format(...)`. -/
def notAListMsg (inputType : String) : String :=
  "Expected a list of items but got type \"" ++ inputType ++ "\"."

/-- `'"{input}" is not a valid choice.'.format(input=data)`; `format` renders
`data` with `str()`. -/
def invalidChoiceMsg (inputStr : String) : String :=
  "\"" ++ inputStr ++ "\" is not a valid choice."

/-- The configuration of a bound `Field` that `run_validation` consults:
`required`, `allow_null`, `default` (`Option.none` models the `empty`
sentinel default; a callable default is modelled by the value it produces),
`source` (after `bind`, so never `None`; `"*"` is the wildcard), and
`rootPmode`, the value of `getattr(self.root, 'partial', False)` — whether
the root serializer is in partial-update mode.  Fields not consulted by
validation (`help_text`, `initial`, ...) are omitted. -/
structure FieldCfg where
  required : Bool
  allowNull : Bool
  default : Option PyVal
  source : String
  rootPmode : Bool

/-- Outcome of `Field.validate_empty_values`: `vSkip` = raised
`SkipFieldException`, `vFail` = raised `ValidationError`, `vDone v` =
returned `(True, v)` (short-circuit with value `v`), `vCont v` = returned
`(False, v)` (validation continues on `v`). -/
inductive EmptyRes where
  | vSkip : EmptyRes
  | vFail (e : ErrTree) : EmptyRes
  | vDone (v : PyVal) : EmptyRes
  | vCont (v : PyVal) : EmptyRes

/-- `Field.validate_empty_values` (with `Field.get_default` inlined into the
`data is empty` branch: when the value is absent and the field is not
required, a missing default raises `SkipFieldException`; the enclosing
partial check of `get_default` is redundant there since partial mode
already raised). -/
def Field.validate_empty_values (cfg : FieldCfg) (data : Inp) : EmptyRes :=
  match data with
  | .empty =>
    if cfg.rootPmode then .vSkip
    else if cfg.required then .vFail (.msg requiredMsg)
    else
      match cfg.default with
      | none => .vSkip
      | some d => .vDone d
  | .val .vnone =>
    if !cfg.allowNull then .vFail (.msg nullMsg)
    else if cfg.source = "*" then .vCont .vnone
    else .vDone .vnone
  | .val v => .vCont v

/-- A validator attached to a field: passes (`none`) or raises
`ValidationError` with a details payload (`some`). -/
abbrev Validator := PyVal → Option ErrTree

/-- The accumulator loop of `Field.run_validators`: each failing
validator's `exc.details` is appended to `errors`. -/
def Field.run_validators_go (value : PyVal) : List Validator → List ErrTree → List ErrTree
  | [], errors => errors
  | f :: rest, errors =>
    Field.run_validators_go value rest
      (errors ++ (match f value with | some d => [d] | none => []))

/-- `Field.run_validators`: run every validator, collect the details of all
failures, and raise one `ValidationError` listing them iff at least one
validator failed. -/
def Field.run_validators (validators : List Validator) (value : PyVal) : Option ErrTree :=
  let errors := Field.run_validators_go value validators []
  if errors.isEmpty then none else some (.nlist errors)

/-- `Field.run_validation`, parameterised by the field's
`to_internal_value` (which either returns a value or raises
`ValidationError`) and its attached validators. -/
def Field.run_validation (cfg : FieldCfg) (toInternal : PyVal → Except ErrTree PyVal)
    (validators : List Validator) (data : Inp) : VRes :=
  match Field.validate_empty_values cfg data with
  | .vSkip => .skip
  | .vFail e => .err e
  | .vDone v => .ok v
  | .vCont v =>
    match toInternal v with
    | .error e => .err e
    | .ok value =>
      match Field.run_validators validators value with
      | some e => .err e
      | none => .ok value

/-- `Field.get_value`: mapping input → `dictionary.get(field_name, empty)`;
non-mapping input → `getattr(dictionary, field_name, empty)` (the embedded
plain values expose no attributes, so the lookup yields the sentinel). -/
def Field.get_value (fieldName : String) (data : PyVal) : Inp :=
  match data with
  | .dict kvs =>
    match kvs.find? (fun p => p.1 == fieldName) with
    | some p => .val p.2
    | none => .empty
  | _ => .empty
/-!
### CharField (`fields.py`)

`allow_blank`, `trim_whitespace` are the constructor options consulted by
validation; `min_length`/`max_length` become appended validators and are
covered by the `validators` parameter.
-/

/-- `data == ''` for the blank check of `CharField.run_validation`:
in Python only an (empty) string compares equal to `''` among the embedded
values, and the `empty` sentinel object does not. -/
def pyEqEmptyStr : Inp → Bool
  | .val (.str s) => s == ""
  | _ => false

/-- `str(data).strip() == ''`: the `empty` sentinel renders as
`'<object object at 0x...>'`, which never strips to empty. -/
def stripsToEmptyStr : Inp → Bool
  | .empty => false
  | .val v => pyStrip (pyStr v) == ""

/-- `CharField.to_internal_value`: reject booleans and every value that is
not `str`/`int`/`float` (floats are outside the embedded domain), then
`str(data)`, trimmed when `trim_whitespace`. -/
def CharField.to_internal_value (trim : Bool) : PyVal → Except ErrTree PyVal
  | .str s => .ok (.str (if trim then pyStrip s else s))
  | .int n => .ok (.str (if trim then pyStrip (toString n) else toString n))
  | _ => .error (.msg charInvalidMsg)

/-- `CharField.to_representation`: `str(value)`, trimmed when
`trim_whitespace`. -/
def CharField.to_representation (trim : Bool) (value : PyVal) : PyVal :=
  .str (if trim then pyStrip (pyStr value) else pyStr value)

/-- `CharField.run_validation`: an input equal to `''`, or (under
`trim_whitespace`) whose `str()` form strips to empty, is handled before
the base pipeline — failing with kind `blank` unless `allow_blank`, in
which case `''` is returned directly; otherwise defer to
`Field.run_validation`. -/
def CharField.run_validation (cfg : FieldCfg) (allowBlank trim : Bool)
    (validators : List Validator) (data : Inp) : VRes :=
  if pyEqEmptyStr data || (trim && stripsToEmptyStr data) then
    if !allowBlank then .err (.msg blankMsg) else .ok (.str "")
  else
    Field.run_validation cfg (CharField.to_internal_value trim) validators data

/-!
### IntegerField (`fields.py`)

`re_decimal = re.compile(r'\.0*\s*$')`; `to_internal_value` does
`int(re_decimal.sub('', str(data)))`, failing with kind `invalid` on
`ValueError`, after rejecting over-long strings.
-/

/-- Does a character list match `0*\s*$` — zero or more `'0'`s followed by
whitespace up to the end?  (The two character classes are disjoint, so the
greedy regex semantics coincide with this linear scan.) -/
def isZerosWsTail : List Char → Bool
  | [] => true
  | c :: cs => if c == '0' then isZerosWsTail cs else isWs c && cs.all isWs

/-- `re_decimal.sub('', ·)` on a character list: delete from the first
position where `\.0*\s*$` matches (a literal dot whose tail is zeros then
trailing whitespace) to the end of the string. -/
def subDecimalL : List Char → List Char
  | [] => []
  | c :: cs => if c == '.' && isZerosWsTail cs then [] else c :: subDecimalL cs

/-- `re_decimal.sub('', ·)` on a string. -/
def subDecimal (s : String) : String :=
  ⟨subDecimalL s.data⟩

/-- Digit-run accumulator for `int()` parsing. -/
def digitsAcc : List Char → Nat → Option Nat
  | [], acc => some acc
  | c :: cs, acc =>
    if c.isDigit then digitsAcc cs (acc * 10 + (c.toNat - 48)) else none

/-- Value of a non-empty run of ASCII digits, `none` otherwise. -/
def digitsVal : List Char → Option Nat
  | [] => none
  | cs => digitsAcc cs 0

/-- Python `int(s)` on a string: surrounding whitespace allowed, optional
sign, then a non-empty digit run; `none` models the raised `ValueError`.
(Underscore digit grouping, accepted by CPython, is elided; no claim
exercises it.) -/
def pyIntOfString (s : String) : Option Int :=
  let cs := ((s.data.dropWhile isWs).reverse.dropWhile isWs).reverse
  match cs with
  | '-' :: rest => (digitsVal rest).map (fun n => -(n : Int))
  | '+' :: rest => (digitsVal rest).map (fun n => (n : Int))
  | rest => (digitsVal rest).map (fun n => (n : Int))

/-- `isinstance(data, str) and len(data) > self.MAX_STRING_LENGTH` with
`MAX_STRING_LENGTH = 1000`. -/
def IntegerField.isLongString : PyVal → Bool
  | .str s => s.length > 1000
  | _ => false

/-- `IntegerField.to_internal_value`. -/
def IntegerField.to_internal_value (data : PyVal) : Except ErrTree PyVal :=
  if IntegerField.isLongString data then .error (.msg maxStringLengthMsg)
  else
    match pyIntOfString (subDecimal (pyStr data)) with
    | some n => .ok (.int n)
    | none => .error (.msg invalidIntMsg)

/-- `IntegerField.to_representation` is `int(value)`: the identity on
ints, `1`/`0` on booleans, strict integer-literal parsing on strings
(note: no `re_decimal` stripping here), and a raised `TypeError` —
modelled as `none` — on `None`, lists and dicts. -/
def IntegerField.to_representation : PyVal → Option PyVal
  | .int n => some (.int n)
  | .bool b => some (.int (if b then 1 else 0))
  | .str s => (pyIntOfString s).map (fun n => .int n)
  | _ => none
/-!
### ChoiceField (`fields.py`) and the choices helpers
(`utils/functional.py`: `to_choices_dict`, `flatten_choices_dict`)
-/

/-- One entry of a declared `choices` argument: a single value, a
`(key, display)` pair, or a `(category, sub_choices)` group. -/
inductive ChoiceEntry where
  | single (v : PyVal) : ChoiceEntry
  | pair (k v : PyVal) : ChoiceEntry
  | group (k : PyVal) (sub : List ChoiceEntry) : ChoiceEntry

/-- A value of the (possibly grouped) choices dict. -/
inductive ChoiceNode where
  | leaf (v : PyVal) : ChoiceNode
  | nested (d : List (PyVal × ChoiceNode)) : ChoiceNode

mutual

/-- Structural Python `==` on embedded values.  (CPython's cross-type
numeric equalities such as `True == 1` are elided; every dict key
exercised here is compared within one type.) -/
def pyBeq : PyVal → PyVal → Bool
  | .vnone, .vnone => true
  | .bool a, .bool b => a == b
  | .int a, .int b => a == b
  | .str a, .str b => a == b
  | .list a, .list b => pyBeqList a b
  | .dict a, .dict b => pyBeqDict a b
  | _, _ => false

/-- Elementwise `==` on lists. -/
def pyBeqList : List PyVal → List PyVal → Bool
  | [], [] => true
  | a :: as1, b :: bs1 => pyBeq a b && pyBeqList as1 bs1
  | _, _ => false

/-- Itemwise `==` on dict item lists. -/
def pyBeqDict : List (String × PyVal) → List (String × PyVal) → Bool
  | [], [] => true
  | a :: as1, b :: bs1 => (a.1 == b.1 && pyBeq a.2 b.2) && pyBeqDict as1 bs1
  | _, _ => false

end

/-- Python dict assignment `d[k] = v` on an ordered item list: overwrite in
place (keeping the originally inserted key object and position), append
when absent. -/
def dictAssign {α β : Type} (eqf : α → α → Bool) :
    List (α × β) → α → β → List (α × β)
  | [], k, v => [(k, v)]
  | p :: rest, k, v =>
    if eqf p.1 k then (p.1, v) :: rest else p :: dictAssign eqf rest k v

/-- Python dict lookup `d[k]` on an ordered item list. -/
def dictLookup {α β : Type} (eqf : α → α → Bool) :
    List (α × β) → α → Option β
  | [], _ => none
  | p :: rest, k => if eqf p.1 k then some p.2 else dictLookup eqf rest k

mutual

/-- The `(key, value)` assignment one entry of `to_choices_dict`
(`utils/functional.py`) contributes to `ret`: a single choice maps to
itself, a pair to its display value, a group to the recursively built
sub-dict. -/
def choiceItem : ChoiceEntry → PyVal × ChoiceNode
  | .single v => (v, .leaf v)
  | .pair k v => (k, .leaf v)
  | .group k sub => (k, .nested (to_choices_dict_go sub []))

/-- The `for choice in choices` loop of `to_choices_dict`, assigning each
entry's item into the ordered dict `ret` in turn. -/
def to_choices_dict_go : List ChoiceEntry → List (PyVal × ChoiceNode) → List (PyVal × ChoiceNode)
  | [], acc => acc
  | e :: rest, acc =>
    to_choices_dict_go rest (dictAssign pyBeq acc (choiceItem e).1 (choiceItem e).2)

end

/-- `to_choices_dict(choices)`. -/
def to_choices_dict (choices : List ChoiceEntry) : List (PyVal × ChoiceNode) :=
  to_choices_dict_go choices []

/-- `flatten_choices_dict`: inline the items of nested sub-dicts one level,
keep plain items. -/
def flatten_choices_dict_go (acc : List (PyVal × ChoiceNode)) :
    List (PyVal × ChoiceNode) → List (PyVal × ChoiceNode)
  | [] => acc
  | (k, .leaf v) :: rest => flatten_choices_dict_go (dictAssign pyBeq acc k (.leaf v)) rest
  | (k, .nested sub) :: rest =>
    flatten_choices_dict_go
      (sub.foldl (fun a p => dictAssign pyBeq a p.1 p.2) acc) rest

/-- `flatten_choices_dict(choices)`. -/
def flatten_choices_dict (d : List (PyVal × ChoiceNode)) : List (PyVal × ChoiceNode) :=
  flatten_choices_dict_go [] d

/-- `ChoiceField._set_choices`' final table:
`{str(key): key for key in flatten_choices_dict(to_choices_dict(choices))}`
(a dict comprehension assigns sequentially). -/
def choice_strings_to_values (choices : List ChoiceEntry) : List (String × PyVal) :=
  (flatten_choices_dict (to_choices_dict choices)).foldl
    (fun acc p => dictAssign (fun a b => a == b) acc (pyStr p.1) p.1) []

/-- `data == ''` on an embedded value. -/
def pyIsEmptyStr : PyVal → Bool
  | .str s => s == ""
  | _ => false

/-- `ChoiceField.to_internal_value`: blank passthrough when allowed, then
exact string-key lookup `self.choice_strings_to_values[str(data)]`,
failing with kind `invalid_choice` (echoing the input) on `KeyError`. -/
def ChoiceField.to_internal_value (allowBlank : Bool) (choices : List ChoiceEntry)
    (data : PyVal) : Except ErrTree PyVal :=
  if pyIsEmptyStr data && allowBlank then .ok (.str "")
  else
    match dictLookup (fun a b => a == b) (choice_strings_to_values choices) (pyStr data) with
    | some v => .ok v
    | none => .error (.msg (invalidChoiceMsg (pyStr data)))

/-!
### ListField (`fields.py`)
-/

/-- State of the `for idx, item in enumerate(data)` loop of
`ListField.run_child_validation`: the collected `result` list and the
index-keyed `errors` dict, or an exception escaping the loop (the `try`
catches only `ValidationError`). -/
inductive LFLoop where
  | fin (result : List PyVal) (errors : List (Nat × ErrTree)) : LFLoop
  | skipped : LFLoop
  | crashed : LFLoop

/-- The enumeration loop of `ListField.run_child_validation`, starting at
index `idx`. -/
def ListField.child_loop (childRun : PyVal → VRes) (idx : Nat) : List PyVal → LFLoop
  | [] => .fin [] []
  | item :: rest =>
    match childRun item with
    | .ok v =>
      match ListField.child_loop childRun (idx + 1) rest with
      | .fin r e => .fin (v :: r) e
      | out => out
    | .err d =>
      match ListField.child_loop childRun (idx + 1) rest with
      | .fin r e => .fin r ((idx, d) :: e)
      | out => out
    | .skip => .skipped
    | .crash => .crashed

/-- `ListField.run_child_validation`: validate every item, collect failures
index-keyed, raise with that dict iff it is non-empty. -/
def ListField.run_child_validation (childRun : PyVal → VRes) (data : List PyVal) : VRes :=
  match ListField.child_loop childRun 0 data with
  | .fin result errors =>
    if errors.isEmpty then .ok (.list result) else .err (.imap errors)
  | .skipped => .skip
  | .crashed => .crash

/-- `ListField.to_internal_value`: reject strings, mappings and
non-iterables with kind `not_a_list` (reporting the input's type name),
enforce the empty rule, then run per-child validation. -/
def ListField.to_internal_value (allowEmpty : Bool) (childRun : PyVal → VRes)
    (data : PyVal) : VRes :=
  match data with
  | .list l =>
    if !allowEmpty && l.isEmpty then .err (.msg emptyListMsg)
    else ListField.run_child_validation childRun l
  | v => .err (.msg (notAListMsg (pyTypeName v)))
/-!
### Serializer orchestration (`serializers.py`)
-/

/-- String-keyed Python dict assignment. -/
def sAssign (d : List (String × PyVal)) (k : String) (v : PyVal) : List (String × PyVal) :=
  dictAssign (fun a b : String => a == b) d k v

/-- `set_value(dictionary, keys, value)` (`serializers.py`): with no keys,
`dictionary.update(value)`; otherwise create/merge intermediate nested
dicts along the path and assign at the last key.  `none` models the
`TypeError` CPython raises when `value` is not a mapping in the no-keys
case (`update` of a pair iterable is not exercised here), or when an
intermediate key holds a non-dict. -/
def set_value (d : List (String × PyVal)) : List String → PyVal → Option (List (String × PyVal))
  | [], v =>
    match v with
    | .dict kvs => some (kvs.foldl (fun acc p => sAssign acc p.1 p.2) d)
    | _ => none
  | [k], v => some (sAssign d k v)
  | k :: k2 :: rest, v =>
    match dictLookup (fun a b : String => a == b) d k with
    | some (.dict sub) => (set_value sub (k2 :: rest) v).map (fun s => sAssign d k (.dict s))
    | some _ => none
    | none => (set_value [] (k2 :: rest) v).map (fun s => sAssign d k (.dict s))

/-- A field bound into a serializer (`BaseFormSerializer.fields`): its
declared name, its resolved `source_attrs`, and its per-field step —
`field.run_validation(...)` composed with the optional `clean_<name>` hook
(both run inside the same `try`, whose handlers catch `ValidationError`
and `SkipFieldException`; anything else escapes as `crash`). -/
structure BField where
  name : String
  sourceAttrs : List String
  step : Inp → VRes

/-- The field loop of `BaseFormSerializer.to_internal_value`, carrying the
`ret` and `errors` ordered dicts: failures are recorded under
`field.field_name` and the loop continues; a skip touches neither dict;
a successful value is written through `set_value` at the field's source
path (an escaping exception there aborts the call). -/
def Serializer.to_internal_value_go (data : PyVal) :
    List BField → List (String × PyVal) → List (String × ErrTree) → VRes
  | [], ret, errors =>
    if errors.isEmpty then .ok (.dict ret) else .err (.smap errors)
  | f :: rest, ret, errors =>
    match f.step (Field.get_value f.name data) with
    | .ok v =>
      match set_value ret f.sourceAttrs v with
      | some ret2 => Serializer.to_internal_value_go data rest ret2 errors
      | none => .crash
    | .err d => Serializer.to_internal_value_go data rest ret (errors ++ [(f.name, d)])
    | .skip => Serializer.to_internal_value_go data rest ret errors
    | .crash => .crash

/-- `BaseFormSerializer.to_internal_value`: process every bound field in
declaration order, then raise with the full error dict iff any field
recorded an error, else return the assembled value dict. -/
def Serializer.to_internal_value (fields : List BField) (data : PyVal) : VRes :=
  Serializer.to_internal_value_go data fields [] []

/-- Specification view: the `(field_name, details)` pairs of exactly the
fields whose step fails, in declaration order. -/
def Serializer.field_errors (fields : List BField) (data : PyVal) : List (String × ErrTree) :=
  fields.filterMap (fun f =>
    match f.step (Field.get_value f.name data) with
    | .err d => some (f.name, d)
    | _ => none)

/-- Specification view: the value tree assembled by folding `set_value`
over exactly the fields whose step succeeds, in declaration order. -/
def Serializer.field_values_go (data : PyVal) :
    List BField → List (String × PyVal) → Option (List (String × PyVal))
  | [], ret => some ret
  | f :: rest, ret =>
    match f.step (Field.get_value f.name data) with
    | .ok v => (set_value ret f.sourceAttrs v).bind (Serializer.field_values_go data rest)
    | _ => Serializer.field_values_go data rest ret

/-- Specification view of the assembled value tree (from an empty root). -/
def Serializer.field_values (fields : List BField) (data : PyVal) : Option (List (String × PyVal)) :=
  Serializer.field_values_go data fields []

/-- No field step escapes with a non-`ValidationError`,
non-`SkipFieldException` exception. -/
def Serializer.no_crash (fields : List BField) (data : PyVal) : Bool :=
  fields.all (fun f =>
    match f.step (Field.get_value f.name data) with
    | .crash => false
    | _ => true)

/-- `BaseFormSerializer.run_validation`: empty/null resolution, then
`to_internal_value`, then the Meta validators, then the whole-schema
`clean` hook (identity by default, as in the source). -/
def Serializer.run_validation (cfg : FieldCfg) (metaValidators : List Validator)
    (fields : List BField) (data : Inp) : VRes :=
  match Field.validate_empty_values cfg data with
  | .vSkip => .skip
  | .vFail e => .err e
  | .vDone v => .ok v
  | .vCont v =>
    match Serializer.to_internal_value fields v with
    | .ok value =>
      match Field.run_validators metaValidators value with
      | some e => .err e
      | none => .ok value
    | out => out

/-!
### ListSerializer (`serializers.py`)
-/

/-- State of the `for item in data` loop of
`ListSerializer.to_internal_value`: the `ret` list of validated values and
the plain `errors` list of failing items' details (appended in encounter
order, with no index key), or an exception escaping the loop. -/
inductive LSLoop where
  | fin (ret : List PyVal) (errors : List ErrTree) : LSLoop
  | skipped : LSLoop
  | crashed : LSLoop

/-- The item loop of `ListSerializer.to_internal_value`:
`self.child.run_validation(item)` for every item; `ValidationError`
details are appended to `errors`, successes to `ret`. -/
def ListSerializer.item_loop (childRun : PyVal → VRes) : List PyVal → LSLoop
  | [] => .fin [] []
  | item :: rest =>
    match childRun item with
    | .ok v =>
      match ListSerializer.item_loop childRun rest with
      | .fin r e => .fin (v :: r) e
      | out => out
    | .err d =>
      match ListSerializer.item_loop childRun rest with
      | .fin r e => .fin r (d :: e)
      | out => out
    | .skip => .skipped
    | .crash => .crashed

/-- `ListSerializer.to_internal_value`: reject non-lists (kind
`not_a_list`), apply the empty rule (skipping under a parent in partial
mode), validate every item via the child, and raise with the plain
`errors` list iff `any(errors)` — some collected details payload is
truthy. -/
def ListSerializer.to_internal_value (allowEmpty hasParent pmode : Bool)
    (childRun : PyVal → VRes) (data : PyVal) : VRes :=
  match data with
  | .list l =>
    if !allowEmpty && l.isEmpty then
      (if hasParent && pmode then .skip else .err (.msg emptyListMsg))
    else
      match ListSerializer.item_loop childRun l with
      | .fin ret errors =>
        if errors.any pyTruthyTree then .err (.nlist errors) else .ok (.list ret)
      | .skipped => .skip
      | .crashed => .crash
  | v => .err (.msg (notAListMsg (pyTypeName v)))

/-- `BaseFormSerializer.run_validation` as inherited by `ListSerializer`
(its `to_internal_value` is the list one). -/
def ListSerializer.run_validation (cfg : FieldCfg) (metaValidators : List Validator)
    (allowEmpty hasParent pmode : Bool) (childRun : PyVal → VRes) (data : Inp) : VRes :=
  match Field.validate_empty_values cfg data with
  | .vSkip => .skip
  | .vFail e => .err e
  | .vDone v => .ok v
  | .vCont v =>
    match ListSerializer.to_internal_value allowEmpty hasParent pmode childRun v with
    | .ok value =>
      match Field.run_validators metaValidators value with
      | some e => .err e
      | none => .ok value
    | out => out

/-- Outcome of `ListSerializer.is_valid`: a returned boolean, a raised
`NameError` (from evaluating the undefined name `raise_exc`), or some
other exception escaping `run_validation` (only `ValidationError` is
caught there). -/
inductive IsValidOut where
  | nameError : IsValidOut
  | ret (b : Bool) : IsValidOut
  | escaped : IsValidOut

/-- `ListSerializer.is_valid(raise_exception=False)` on a fresh instance
(`_validated_data` not yet cached): run `run_validation(self._request_data)`;
on `ValidationError`, `self._errors = exc.details`, else `self._errors =
None`.  The guard `if self._errors and raise_exc:` short-circuits on a
falsy `self._errors`; on a truthy one it evaluates `raise_exc` — a name
bound nowhere in this method (the parameter is `raise_exception`) — so
CPython raises `NameError` there.  Otherwise `not bool(self._errors)` is
returned.  The `raise_exception` argument is never read. -/
def ListSerializer.is_valid (cfg : FieldCfg) (metaValidators : List Validator)
    (allowEmpty hasParent pmode : Bool) (childRun : PyVal → VRes) (requestData : Inp)
    (raise_exception : Bool) : IsValidOut :=
  match ListSerializer.run_validation cfg metaValidators allowEmpty hasParent pmode
      childRun requestData with
  | .ok _ => .ret true
  | .err e => if pyTruthyTree e then .nameError else .ret true
  | .skip => .escaped
  | .crash => .escaped
/-!
### Specification views of the per-item loops
-/

/-- The validated values of exactly the items the child accepts, in order. -/
def childOks (childRun : PyVal → VRes) (l : List PyVal) : List PyVal :=
  l.filterMap (fun x => match childRun x with | .ok v => some v | _ => none)

/-- The details of exactly the items the child rejects, in order (no index). -/
def childErrs (childRun : PyVal → VRes) (l : List PyVal) : List ErrTree :=
  l.filterMap (fun x => match childRun x with | .err d => some d | _ => none)

/-- The `(original index, details)` pairs of exactly the items the child
rejects, with indices counted from `i`. -/
def childErrsFrom (childRun : PyVal → VRes) (i : Nat) (l : List PyVal) : List (Nat × ErrTree) :=
  (l.enumFrom i).filterMap (fun p =>
    match childRun p.2 with | .err d => some (p.1, d) | _ => none)

/-- Child validation of every item either succeeds or raises
`ValidationError` (no `SkipFieldException`, no other escaping exception). -/
def noCtrl (childRun : PyVal → VRes) (l : List PyVal) : Bool :=
  l.all (fun x => match childRun x with | .ok _ => true | .err _ => true | _ => false)

/-!
### Helper lemmas
-/

theorem dropWhile_dropWhile {α : Type} (p : α → Bool) (l : List α) :
    (l.dropWhile p).dropWhile p = l.dropWhile p := by
  induction l with
  | nil => rfl
  | cons a t ih =>
    by_cases h : p a = true
    · rw [List.dropWhile_cons_of_pos h]; exact ih
    · rw [List.dropWhile_cons_of_neg (by simp [h]),
        List.dropWhile_cons_of_neg (by simp [h])]

theorem dropWhile_head_false {α : Type} {p : α → Bool} {l : List α} {a : α} {t : List α}
    (h : l.dropWhile p = a :: t) : p a = false := by
  induction l with
  | nil => exact absurd h (by simp)
  | cons b u ih =>
    by_cases hb : p b = true
    · rw [List.dropWhile_cons_of_pos hb] at h; exact ih h
    · rw [List.dropWhile_cons_of_neg (by simp [hb])] at h
      cases h; simpa using hb

theorem dropWhile_getLast? {α : Type} {p : α → Bool} {l : List α}
    (h : l.dropWhile p ≠ []) : (l.dropWhile p).getLast? = l.getLast? := by
  induction l with
  | nil => exact absurd rfl h
  | cons a t ih =>
    by_cases ha : p a = true
    · rw [List.dropWhile_cons_of_pos ha] at h ⊢
      have ht : t ≠ [] := by rintro rfl; exact h rfl
      rw [ih h]
      cases t with
      | nil => exact absurd rfl ht
      | cons b u => rw [List.getLast?_cons_cons]
    · rw [List.dropWhile_cons_of_neg (by simp [ha])]

theorem pyStripL_idem (cs : List Char) : pyStripL (pyStripL cs) = pyStripL cs := by
  unfold pyStripL
  set d := cs.dropWhile isWs with hd
  set m := d.reverse.dropWhile isWs with hm
  cases hcase : m with
  | nil => simp [hcase]
  | cons a t =>
    have hmne : m ≠ [] := by rw [hcase]; simp
    have hr : m.reverse.dropWhile isWs = m.reverse := by
      have hhead : m.reverse.head? = d.head? := by
        rw [List.head?_reverse]
        rw [hm] at hmne ⊢
        rw [dropWhile_getLast? hmne, List.getLast?_reverse]
      cases hval : m.reverse with
      | nil => rfl
      | cons b u =>
        have hb : d.head? = some b := by rw [← hhead, hval]; rfl
        have hdne : ∃ w, d = b :: w := by
          cases hdd : d with
          | nil => rw [hdd] at hb; exact absurd hb (by simp)
          | cons c w =>
            rw [hdd] at hb
            simp at hb
            exact ⟨w, by rw [hb]⟩
        obtain ⟨w, hw⟩ := hdne
        have hbf : isWs b = false := dropWhile_head_false (l := cs) (by rw [← hd, ← hw])
        exact List.dropWhile_cons_of_neg (by simp [hbf])
    rw [← hcase, hr, List.reverse_reverse, hm, dropWhile_dropWhile]

theorem pyStrip_idem (s : String) : pyStrip (pyStrip s) = pyStrip s := by
  unfold pyStrip
  exact congrArg String.mk (pyStripL_idem s.data)

theorem run_validators_go_eq (value : PyVal) (vals : List Validator) (acc : List ErrTree) :
    Field.run_validators_go value vals acc = acc ++ vals.filterMap (fun f => f value) := by
  induction vals generalizing acc with
  | nil => simp [Field.run_validators_go]
  | cons f rest ih =>
    rw [Field.run_validators_go, ih, List.filterMap_cons]
    cases f value <;> simp

theorem isZerosWsTail_of_zeros (zs : List Char) (h : ∀ c ∈ zs, c = '0') :
    isZerosWsTail zs = true := by
  induction zs with
  | nil => rfl
  | cons c t ih =>
    have hc : c = '0' := h c (by simp)
    rw [isZerosWsTail, if_pos (by simp [hc])]
    exact ih (fun x hx => h x (by simp [hx]))

theorem subDecimalL_append_dot (a zs : List Char) (ha : ∀ c ∈ a, c ≠ '.')
    (hz : ∀ c ∈ zs, c = '0') : subDecimalL (a ++ '.' :: zs) = a := by
  induction a with
  | nil => simp [subDecimalL, isZerosWsTail_of_zeros zs hz]
  | cons c t ih =>
    have hc : c ≠ '.' := ha c (by simp)
    rw [List.cons_append, subDecimalL, if_neg (by simp [hc])]
    rw [ih (fun x hx => ha x (by simp [hx]))]

theorem subDecimalL_no_dot (a : List Char) (ha : ∀ c ∈ a, c ≠ '.') :
    subDecimalL a = a := by
  induction a with
  | nil => rfl
  | cons c t ih =>
    have hc : c ≠ '.' := ha c (by simp)
    rw [subDecimalL, if_neg (by simp [hc])]
    rw [ih (fun x hx => ha x (by simp [hx]))]
/-!
### Concrete demonstration material used by witnesses
-/

/-- The declared choices `{1: "First", 2: "Second"}` of the spec example. -/
def demoChoices : List ChoiceEntry :=
  [.pair (.int 1) (.str "First"), .pair (.int 2) (.str "Second")]

/-- A child whose `run_validation` is a required `IntegerField` bound at
name `n` (accepts ints and integer-like strings, rejects the rest). -/
def demoChildRun : PyVal → VRes := fun v =>
  Field.run_validation ⟨true, false, none, "n", false⟩ IntegerField.to_internal_value []
    (.val v)

/-- An always-failing attached validator (e.g. an unsatisfiable length
bound), used to observe whether the validator pipeline was invoked. -/
def demoFailValidator : Validator := fun _ => some (.msg "length check failed")

/-- `name = CharField(required=True)` bound in a partial-mode root. -/
def demoNameFieldP : BField :=
  ⟨"name", ["name"], fun inp =>
    CharField.run_validation ⟨true, false, none, "name", true⟩ false true [] inp⟩

/-- `age = IntegerField(required=True)` bound in a partial-mode root. -/
def demoAgeFieldP : BField :=
  ⟨"age", ["age"], fun inp =>
    Field.run_validation ⟨true, false, none, "age", true⟩ IntegerField.to_internal_value [] inp⟩

/-- `name = CharField(required=True)` bound in a non-partial root. -/
def demoNameFieldR : BField :=
  ⟨"name", ["name"], fun inp =>
    CharField.run_validation ⟨true, false, none, "name", false⟩ false true [] inp⟩

/-- `age = IntegerField(required=True)` bound in a non-partial root. -/
def demoAgeFieldR : BField :=
  ⟨"age", ["age"], fun inp =>
    Field.run_validation ⟨true, false, none, "age", false⟩ IntegerField.to_internal_value [] inp⟩

/-!
### The claims
-/

/-- **C7.** The validator pipeline runs every attached validator in
declaration order without short-circuiting: `run_validators` raises iff at
least one validator failed, and the raised payload lists the details of
exactly the failing validators, in order. -/
theorem claim7_validator_pipeline (vals : List Validator) (value : PyVal) :
    Field.run_validators vals value =
      (if (vals.filterMap (fun f => f value)).isEmpty then none
       else some (.nlist (vals.filterMap (fun f => f value)))) := by
  unfold Field.run_validators
  rw [run_validators_go_eq]
  simp

/-- **C8.** A Choice field declared with choices `{1: "First", 2: "Second"}`
resolves input by exact string-key lookup on the flattened table
`{"1": 1, "2": 2}`: input `"2"` yields internal value `2`; input `"9"`
fails with kind `invalid_choice`, echoing `"9"` verbatim in the message. -/
theorem claim8_choice_lookup :
    choice_strings_to_values demoChoices = [("1", .int 1), ("2", .int 2)]
    ∧ ChoiceField.to_internal_value false demoChoices (.str "2") = .ok (.int 2)
    ∧ ChoiceField.to_internal_value false demoChoices (.str "9") =
        .error (.msg "\"9\" is not a valid choice.") :=
  ⟨rfl, rfl, rfl⟩

/-- **C10.** For a `CharField` with `allow_blank=True`, an input equal to
the empty string — or, with `trim_whitespace` enabled, one whose string
form strips to empty — is returned as `''` directly from `run_validation`,
bypassing `to_internal_value` and every attached validator (the result
does not depend on `validators`, so e.g. a `min_length` bound is not
enforced); with `allow_blank=False` the same inputs fail with kind
`blank`. -/
theorem claim10_blank_shortcut (cfg : FieldCfg) (trim : Bool)
    (validators : List Validator) (s : String)
    (h : s = "" ∨ (trim = true ∧ pyStrip s = "")) :
    CharField.run_validation cfg true trim validators (.val (.str s)) = .ok (.str "")
    ∧ CharField.run_validation cfg false trim validators (.val (.str s)) =
        .err (.msg blankMsg) := by
  have hb : (pyEqEmptyStr (.val (.str s))
      || (trim && stripsToEmptyStr (.val (.str s)))) = true := by
    rcases h with rfl | ⟨ht, hs⟩
    · simp [pyEqEmptyStr]
    · subst ht
      simp [stripsToEmptyStr, pyStr, hs]
  constructor
  · unfold CharField.run_validation
    rw [hb]
    rfl
  · unfold CharField.run_validation
    rw [hb]
    rfl

/-- Witness for C10: the whitespace-only input `"  "` with an attached
always-failing validator is returned as `''` when `allow_blank` and fails
with kind `blank` otherwise. -/
theorem claim10_witness :
    CharField.run_validation ⟨true, false, none, "name", false⟩ true true
        [demoFailValidator] (.val (.str "  ")) = .ok (.str "")
    ∧ CharField.run_validation ⟨true, false, none, "name", false⟩ false true
        [demoFailValidator] (.val (.str "  ")) = .err (.msg blankMsg) :=
  claim10_blank_shortcut ⟨true, false, none, "name", false⟩ true [demoFailValidator] "  "
    (Or.inr ⟨rfl, rfl⟩)

/-- **C2 (amended).** Explicit-null handling of `Field.run_validation`:
with `allow_null=True` and wildcard source `"*"`, a `None` value does
*not* short-circuit — validation continues into `to_internal_value(None)`
and the validator pipeline; with `allow_null=True` and a non-wildcard
source, `None` short-circuits and is returned untouched; with
`allow_null=False`, `None` fails with kind `null`. -/
theorem claim2_null_wildcard_amended :
    (∀ (req : Bool) (df : Option PyVal) (rp : Bool)
        (ti : PyVal → Except ErrTree PyVal) (vals : List Validator),
      Field.run_validation ⟨req, true, df, "*", rp⟩ ti vals (.val .vnone) =
        (match ti .vnone with
         | .error e => .err e
         | .ok value =>
           match Field.run_validators vals value with
           | some e => .err e
           | none => .ok value))
    ∧ (∀ (req : Bool) (df : Option PyVal) (src : String) (rp : Bool)
        (ti : PyVal → Except ErrTree PyVal) (vals : List Validator), src ≠ "*" →
      Field.run_validation ⟨req, true, df, src, rp⟩ ti vals (.val .vnone) = .ok .vnone)
    ∧ (∀ (req : Bool) (df : Option PyVal) (src : String) (rp : Bool)
        (ti : PyVal → Except ErrTree PyVal) (vals : List Validator),
      Field.run_validation ⟨req, false, df, src, rp⟩ ti vals (.val .vnone) =
        .err (.msg nullMsg)) := by
  refine ⟨fun req df rp ti vals => rfl, ?_, fun req df src rp ti vals => rfl⟩
  intro req df src rp ti vals h
  simp [Field.run_validation, Field.validate_empty_values, h]

/-- Counterexample for C2 as stated: an `allow_null=True` field with
source `"*"` (an `IntegerField`, whose `to_internal_value(None)` parses
`str(None)` and fails) does not return `None` untouched on explicit null —
`run_validation` raises kind `invalid` from `to_internal_value`. -/
theorem claim2_counterexample :
    Field.run_validation ⟨false, true, none, "*", false⟩ IntegerField.to_internal_value []
        (.val .vnone) = .err (.msg invalidIntMsg)
    ∧ Field.run_validation ⟨false, true, none, "*", false⟩ IntegerField.to_internal_value []
        (.val .vnone) ≠ .ok .vnone :=
  ⟨rfl, fun h => nomatch h⟩

/-- Witness for C2 (amended): a non-wildcard nullable integer field
short-circuits `None` to `None`, and a non-nullable one fails with kind
`null`. -/
theorem claim2_witness :
    Field.run_validation ⟨false, true, none, "age", false⟩ IntegerField.to_internal_value []
        (.val .vnone) = .ok .vnone
    ∧ Field.run_validation ⟨false, false, none, "age", false⟩ IntegerField.to_internal_value []
        (.val .vnone) = .err (.msg nullMsg) :=
  ⟨claim2_null_wildcard_amended.2.1 false none "age" false IntegerField.to_internal_value []
      (by decide),
   claim2_null_wildcard_amended.2.2 false none "age" false IntegerField.to_internal_value []⟩
/-- **C5.** `ListSerializer.is_valid`: whenever `run_validation` of the
request data raised a `ValidationError` with a truthy (non-empty) details
payload, `is_valid` raises `NameError` — its exception branch evaluates
the undefined name `raise_exc` instead of its `raise_exception` parameter
— for every value of `raise_exception`; when validation raised nothing,
`is_valid` returns `True`. -/
theorem claim5_is_valid_name_error :
    (∀ (cfg : FieldCfg) (mv : List Validator) (ae hp pm : Bool) (cr : PyVal → VRes)
        (rd : Inp) (re : Bool) (e : ErrTree),
      ListSerializer.run_validation cfg mv ae hp pm cr rd = .err e →
      pyTruthyTree e = true →
      ListSerializer.is_valid cfg mv ae hp pm cr rd re = .nameError)
    ∧ (∀ (cfg : FieldCfg) (mv : List Validator) (ae hp pm : Bool) (cr : PyVal → VRes)
        (rd : Inp) (re : Bool) (v : PyVal),
      ListSerializer.run_validation cfg mv ae hp pm cr rd = .ok v →
      ListSerializer.is_valid cfg mv ae hp pm cr rd re = .ret true) := by
  constructor
  · intro cfg mv ae hp pm cr rd re e he ht
    simp [ListSerializer.is_valid, he, ht]
  · intro cfg mv ae hp pm cr rd re v hv
    simp [ListSerializer.is_valid, hv]

/-- Witness for C5: a `ListSerializer` of required integer children raises
`NameError` from `is_valid` on `["x"]` even with `raise_exception=True`,
and returns `True` on `[3]`. -/
theorem claim5_witness :
    ListSerializer.is_valid ⟨false, false, none, "items", false⟩ [] true false false
        demoChildRun (.val (.list [.str "x"])) true = .nameError
    ∧ ListSerializer.is_valid ⟨false, false, none, "items", false⟩ [] true false false
        demoChildRun (.val (.list [.int 3])) false = .ret true :=
  ⟨claim5_is_valid_name_error.1 ⟨false, false, none, "items", false⟩ [] true false false
      demoChildRun (.val (.list [.str "x"])) true (.nlist [.msg invalidIntMsg]) rfl rfl,
   claim5_is_valid_name_error.2 ⟨false, false, none, "items", false⟩ [] true false false
      demoChildRun (.val (.list [.int 3])) false (.list [.int 3]) rfl⟩

/-- **C6.** Partial mode: any field (including the `CharField` override)
receiving the absent-value sentinel under a partial-mode root raises
`SkipFieldException` — it is neither defaulted nor failed as required; and
the concrete partial schema `{name: required string, age: required int}`
validating `{"name": "a"}` succeeds with exactly `{"name": "a"}`, `age`
omitted. -/
theorem claim6_partial_skip :
    (∀ (req an : Bool) (df : Option PyVal) (src : String)
        (ti : PyVal → Except ErrTree PyVal) (vals : List Validator),
      Field.run_validation ⟨req, an, df, src, true⟩ ti vals .empty = .skip)
    ∧ (∀ (req an ab tr : Bool) (df : Option PyVal) (src : String) (vals : List Validator),
      CharField.run_validation ⟨req, an, df, src, true⟩ ab tr vals .empty = .skip)
    ∧ Serializer.to_internal_value [demoNameFieldP, demoAgeFieldP]
        (.dict [("name", .str "a")]) = .ok (.dict [("name", .str "a")]) := by
  refine ⟨fun req an df src ti vals => rfl, ?_, rfl⟩
  intro req an ab tr df src vals
  cases tr <;> rfl
/-- **C1 (amended).** Round-trip on the representation of the *internal*
value: every value accepted by `IntegerField.to_internal_value` produces
an internal value on which `to_representation` is defined and the
identity; for `CharField` the round-trip holds exactly as originally
stated — `to_representation(to_internal_value(x)) = to_representation(x)`
for every accepted `x`.  (`IntegerField.to_representation` itself need
not be defined on every accepted input: see the counterexample.) -/
theorem claim1_roundtrip_amended :
    (∀ (x v : PyVal), IntegerField.to_internal_value x = .ok v →
      IntegerField.to_representation v = some v)
    ∧ (∀ (trim : Bool) (x v : PyVal), CharField.to_internal_value trim x = .ok v →
      CharField.to_representation trim v = CharField.to_representation trim x) := by
  constructor
  · intro x v h
    unfold IntegerField.to_internal_value at h
    split at h
    · simp at h
    · split at h
      · injection h with h2
        subst h2
        rfl
      · simp at h
  · intro trim x v h
    cases x with
    | str s =>
      rw [CharField.to_internal_value] at h
      injection h with h2
      subst h2
      cases trim with
      | true =>
        simp [CharField.to_representation, pyStr, pyStrip_idem]
      | false => rfl
    | int n =>
      rw [CharField.to_internal_value] at h
      injection h with h2
      subst h2
      cases trim with
      | true =>
        simp [CharField.to_representation, pyStr, pyRepr, pyStrip_idem]
      | false => rfl
    | vnone => simp [CharField.to_internal_value] at h
    | bool b => simp [CharField.to_internal_value] at h
    | list l => simp [CharField.to_internal_value] at h
    | dict d => simp [CharField.to_internal_value] at h

/-- Counterexample for C1 as stated: `"1.0"` is accepted by
`IntegerField.to_internal_value` (yielding `1`), but
`IntegerField.to_representation("1.0")` is undefined — `int("1.0")`
raises `ValueError` — so it cannot equal
`to_representation(to_internal_value("1.0")) = some 1`. -/
theorem claim1_counterexample :
    IntegerField.to_internal_value (.str "1.0") = .ok (.int 1)
    ∧ IntegerField.to_representation (.str "1.0") = none
    ∧ IntegerField.to_representation (.str "1.0") ≠
        IntegerField.to_representation (.int 1) :=
  ⟨rfl, rfl, fun h => nomatch h⟩

/-- Witness for C1 (amended): the accepted input `"7.0"` yields internal
value `7`, on which representation is the identity; the accepted `CharField`
input `" a "` round-trips to the same representation as its internal
value `"a"`. -/
theorem claim1_witness :
    IntegerField.to_representation (.int 7) = some (.int 7)
    ∧ CharField.to_representation true (.str "a") =
        CharField.to_representation true (.str " a ") :=
  ⟨claim1_roundtrip_amended.1 (.str "7.0") (.int 7) rfl,
   claim1_roundtrip_amended.2 true (.str " a ") (.str "a") rfl⟩

/-- **C9.** `IntegerField.to_internal_value` strips a trailing
`".0"`-style decimal suffix (a dot followed by zeros) before parsing:
appending `"." ++ zeros` to a dot-free string does not change the outcome
(within the string-length bound); in particular `"1.0"` converts to `1`,
while `"1.2"` fails with a typed validation failure of kind `invalid`
(never a raw type error). -/
theorem claim9_integer_decimal_suffix :
    (∀ (a zs : String), (∀ c ∈ a.data, c ≠ '.') → (∀ c ∈ zs.data, c = '0') →
      (a ++ "." ++ zs).length ≤ 1000 →
      IntegerField.to_internal_value (.str (a ++ "." ++ zs)) =
        IntegerField.to_internal_value (.str a))
    ∧ IntegerField.to_internal_value (.str "1.0") = .ok (.int 1)
    ∧ IntegerField.to_internal_value (.str "1.2") = .error (.msg invalidIntMsg) := by
  refine ⟨?_, rfl, rfl⟩
  intro a zs ha hz hlen
  have hdata : (a ++ "." ++ zs).data = a.data ++ '.' :: zs.data := by
    rw [String.data_append, String.data_append]
    simp
  have hsub : subDecimal (a ++ "." ++ zs) = subDecimal a := by
    unfold subDecimal
    apply congrArg String.mk
    rw [hdata, subDecimalL_append_dot a.data zs.data ha hz, subDecimalL_no_dot a.data ha]
  rw [String.length_append, String.length_append] at hlen
  have hlen1 : IntegerField.isLongString (.str (a ++ "." ++ zs)) = false := by
    simp [IntegerField.isLongString]
    omega
  have hlen2 : IntegerField.isLongString (.str a) = false := by
    simp [IntegerField.isLongString]
    omega
  unfold IntegerField.to_internal_value
  rw [hlen1, hlen2]
  simp only [Bool.false_eq_true, if_false]
  rw [show pyStr (.str (a ++ "." ++ zs)) = a ++ "." ++ zs from rfl,
    show pyStr (.str a) = a from rfl, hsub]

/-- Witness for C9: `"12.0"` parses exactly as `"12"` does. -/
theorem claim9_witness :
    IntegerField.to_internal_value (.str "12.0") =
      IntegerField.to_internal_value (.str "12") :=
  claim9_integer_decimal_suffix.1 "12" "0" (by decide) (by decide) (by decide)
theorem ser_go_characterization (data : PyVal) (fields : List BField)
    (ret0 : List (String × PyVal)) (errs0 : List (String × ErrTree))
    (ret : List (String × PyVal))
    (hnc : Serializer.no_crash fields data = true)
    (hv : Serializer.field_values_go data fields ret0 = some ret) :
    Serializer.to_internal_value_go data fields ret0 errs0 =
      (if (errs0 ++ Serializer.field_errors fields data).isEmpty
       then .ok (.dict ret)
       else .err (.smap (errs0 ++ Serializer.field_errors fields data))) := by
  induction fields generalizing ret0 errs0 with
  | nil =>
    simp only [Serializer.field_values_go] at hv
    injection hv with hv2
    subst hv2
    simp only [Serializer.to_internal_value_go, Serializer.field_errors,
      List.filterMap_nil, List.append_nil]
  | cons f rest ih =>
    have hnc2 := hnc
    rw [Serializer.no_crash, List.all_cons, Bool.and_eq_true] at hnc2
    obtain ⟨hstepOk, hncRest⟩ := hnc2
    have hncRest2 : Serializer.no_crash rest data = true := hncRest
    cases hstep : f.step (Field.get_value f.name data) with
    | ok v =>
      simp only [Serializer.field_values_go, hstep] at hv
      simp only [Serializer.to_internal_value_go, hstep]
      have herr : Serializer.field_errors (f :: rest) data =
          Serializer.field_errors rest data := by
        simp [Serializer.field_errors, List.filterMap_cons, hstep]
      rw [herr]
      cases hsv : set_value ret0 f.sourceAttrs v with
      | none => rw [hsv] at hv; simp at hv
      | some ret2 =>
        rw [hsv] at hv
        simp only [Option.some_bind] at hv
        exact ih ret2 errs0 hncRest2 hv
    | err d =>
      simp only [Serializer.field_values_go, hstep] at hv
      simp only [Serializer.to_internal_value_go, hstep]
      have herr : Serializer.field_errors (f :: rest) data =
          (f.name, d) :: Serializer.field_errors rest data := by
        simp [Serializer.field_errors, List.filterMap_cons, hstep]
      rw [herr, ih ret0 (errs0 ++ [(f.name, d)]) hncRest2 hv]
      simp [List.append_assoc]
    | skip =>
      simp only [Serializer.field_values_go, hstep] at hv
      simp only [Serializer.to_internal_value_go, hstep]
      have herr : Serializer.field_errors (f :: rest) data =
          Serializer.field_errors rest data := by
        simp [Serializer.field_errors, List.filterMap_cons, hstep]
      rw [herr]
      exact ih ret0 errs0 hncRest2 hv
    | crash =>
      rw [hstep] at hstepOk
      simp at hstepOk

/-- **C3.** `BaseFormSerializer.to_internal_value` processes every bound
field in declaration order without fail-fast (when no field step lets a
non-control exception escape and the value assembly itself is defined):
the call raises iff at least one field recorded an error, the raised tree
is keyed by exactly the failing fields' names in declaration order
(`Serializer.field_errors`), skipping fields appear in neither the error
tree nor the value tree, and on success the assembled value tree is
exactly the `set_value`-fold over the succeeding fields
(`Serializer.field_values`). -/
theorem claim3_error_tree_aggregation (fields : List BField) (data : PyVal)
    (ret : List (String × PyVal))
    (hnc : Serializer.no_crash fields data = true)
    (hv : Serializer.field_values fields data = some ret) :
    Serializer.to_internal_value fields data =
      (if (Serializer.field_errors fields data).isEmpty
       then .ok (.dict ret)
       else .err (.smap (Serializer.field_errors fields data))) := by
  have h := ser_go_characterization data fields [] [] ret hnc hv
  simpa using h

/-- Witness for C3: the non-partial schema `{name: required string,
age: required int}` on `{"name": "a"}` records the required-field error
for `age` (and only it) while still having processed `name`. -/
theorem claim3_witness :
    Serializer.to_internal_value [demoNameFieldR, demoAgeFieldR]
        (.dict [("name", .str "a")]) = .err (.smap [("age", .msg requiredMsg)]) :=
  (claim3_error_tree_aggregation [demoNameFieldR, demoAgeFieldR]
    (.dict [("name", .str "a")]) [("name", .str "a")] rfl rfl).trans rfl

theorem child_loop_characterization (childRun : PyVal → VRes) (l : List PyVal) (i : Nat)
    (h : noCtrl childRun l = true) :
    ListField.child_loop childRun i l =
      .fin (childOks childRun l) (childErrsFrom childRun i l) := by
  induction l generalizing i with
  | nil => rfl
  | cons x rest ih =>
    rw [noCtrl, List.all_cons, Bool.and_eq_true] at h
    obtain ⟨hx, hrest⟩ := h
    have hrest2 : noCtrl childRun rest = true := hrest
    cases hs : childRun x with
    | ok v =>
      simp only [ListField.child_loop, hs, ih (i + 1) hrest2]
      simp [childOks, childErrsFrom, List.enumFrom, List.filterMap_cons, hs]
    | err d =>
      simp only [ListField.child_loop, hs, ih (i + 1) hrest2]
      simp [childOks, childErrsFrom, List.enumFrom, List.filterMap_cons, hs]
    | skip => rw [hs] at hx; simp at hx
    | crash => rw [hs] at hx; simp at hx

theorem item_loop_characterization (childRun : PyVal → VRes) (l : List PyVal)
    (h : noCtrl childRun l = true) :
    ListSerializer.item_loop childRun l =
      .fin (childOks childRun l) (childErrs childRun l) := by
  induction l with
  | nil => rfl
  | cons x rest ih =>
    rw [noCtrl, List.all_cons, Bool.and_eq_true] at h
    obtain ⟨hx, hrest⟩ := h
    have hrest2 : noCtrl childRun rest = true := hrest
    cases hs : childRun x with
    | ok v =>
      simp only [ListSerializer.item_loop, hs, ih hrest2]
      simp [childOks, childErrs, List.filterMap_cons, hs]
    | err d =>
      simp only [ListSerializer.item_loop, hs, ih hrest2]
      simp [childOks, childErrs, List.filterMap_cons, hs]
    | skip => rw [hs] at hx; simp at hx
    | crash => rw [hs] at hx; simp at hx

/-- **C4 (amended).** Neither list layer fails fast — every item is
validated — but only `ListField` keys its error tree by the failing
items' original indices: `ListField.run_child_validation` raises an
index-keyed tree holding exactly the failing positions, while
`ListSerializer.to_internal_value` collects the failing items' details
into a plain (position-compressing) list and raises it when some
collected payload is truthy. -/
theorem claim4_list_errors_amended :
    (∀ (childRun : PyVal → VRes) (l : List PyVal), noCtrl childRun l = true →
      ListField.run_child_validation childRun l =
        (if (childErrsFrom childRun 0 l).isEmpty
         then .ok (.list (childOks childRun l))
         else .err (.imap (childErrsFrom childRun 0 l))))
    ∧ (∀ (childRun : PyVal → VRes) (l : List PyVal) (hp pm : Bool),
        noCtrl childRun l = true →
      ListSerializer.to_internal_value true hp pm childRun (.list l) =
        (if (childErrs childRun l).any pyTruthyTree
         then .err (.nlist (childErrs childRun l))
         else .ok (.list (childOks childRun l)))) := by
  constructor
  · intro childRun l h
    unfold ListField.run_child_validation
    rw [child_loop_characterization childRun l 0 h]
  · intro childRun l hp pm h
    have hloop := item_loop_characterization childRun l h
    simp only [ListSerializer.to_internal_value, hloop]
    simp
/-- A child schema with one required integer field `n`, as
`ListSerializer` wraps (its `run_validation` is the serializer one). -/
def demoChildSerRun : PyVal → VRes := fun v =>
  Serializer.run_validation ⟨false, false, none, "items", false⟩ []
    [⟨"n", ["n"], fun inp =>
      Field.run_validation ⟨true, false, none, "n", false⟩ IntegerField.to_internal_value []
        inp⟩]
    (.val v)

/-- Counterexample for C4 as stated: a `ListSerializer` over the child
schema `{n: required int}` with items invalid at positions 0 and 2 (and
valid at 1) raises a plain two-element list of details — the entries sit
at list positions 0 and 1, not under the keys `{0: ..., 2: ...}` the claim
requires (the index-keyed tree is a different payload). -/
theorem claim4_counterexample :
    ListSerializer.to_internal_value true false false demoChildSerRun
        (.list [.dict [("n", .str "x")], .dict [("n", .int 1)], .dict [("n", .str "y")]]) =
      .err (.nlist [.smap [("n", .msg invalidIntMsg)], .smap [("n", .msg invalidIntMsg)]])
    ∧ ErrTree.nlist [.smap [("n", .msg invalidIntMsg)], .smap [("n", .msg invalidIntMsg)]] ≠
        ErrTree.imap [(0, .smap [("n", .msg invalidIntMsg)]),
          (2, .smap [("n", .msg invalidIntMsg)])] :=
  ⟨rfl, fun h => nomatch h⟩

/-- Witness for C4 (amended): with integer children failing at positions
0 and 2, `ListField` raises the index-keyed tree `{0: ..., 2: ...}`,
while `ListSerializer` raises the compressed two-element list. -/
theorem claim4_witness :
    ListField.run_child_validation demoChildRun [.str "x", .int 1, .str "y"] =
      .err (.imap [(0, .msg invalidIntMsg), (2, .msg invalidIntMsg)])
    ∧ ListSerializer.to_internal_value true false false demoChildRun
        (.list [.str "x", .int 1, .str "y"]) =
      .err (.nlist [.msg invalidIntMsg, .msg invalidIntMsg]) :=
  ⟨(claim4_list_errors_amended.1 demoChildRun [.str "x", .int 1, .str "y"] rfl).trans rfl,
   (claim4_list_errors_amended.2 demoChildRun [.str "x", .int 1, .str "y"] false false
      rfl).trans rfl⟩
